import Mathlib

/-!
Shallow embedding of `src/Codec.ts` (the experimental `Codec` module of io-ts).

The module imports a decoder core `./poc` (`D.Decoder`, `D.compose`, `D.string`,
`D.id`, `D.success`) that is not part of the sources at hand; those primitives are
modelled from the specification (sections 3, 4.1 and 8): a `Decoder I E A` is a pure
function from an input of type `I` and a path `Context` to a `Result E A`; sequential
composition short-circuits on failure and passes the context through unchanged; the
string leaf decoder succeeds on strings and otherwise fails with a single
`ValidationError` carrying the offending value and the context it was called with.

JavaScript numbers and the builtins `parseFloat` / `String(·)` are modelled over
`JSNum` (an integer or NaN): `parseFloat` reads an optional sign followed by the
longest decimal-digit run at the front of the string and yields NaN when there is
none; `jsString` renders NaN as "NaN" and an integer in decimal.  This restriction to
integer numerals (no fractional part, exponent, or leading whitespace) covers every
input the specification exercises.
-/

/-- Model of a JavaScript number as far as the module exercises it: either NaN or an
integer value. -/
inductive JSNum where
  | nan : JSNum
  | int : Int → JSNum
deriving DecidableEq

/-- Numeric value of a list of decimal digit characters, most significant first. -/
def digitsToNat (cs : List Char) : Nat :=
  cs.foldl (fun a c => 10 * a + (c.toNat - 48)) 0

/-- Decimal digit characters of `n`, most significant first, with explicit fuel so
that the definition is structurally recursive. `natDigitsAux fuel n` is the digit
list of `n` whenever `n ≤ fuel`; `natDigitsAux fuel 0 = []`. -/
def natDigitsAux : Nat → Nat → List Char
  | _, 0 => []
  | 0, _ => []
  | fuel + 1, m + 1 => natDigitsAux fuel ((m + 1) / 10) ++ [Nat.digitChar ((m + 1) % 10)]

/-- Decimal digit characters of `n`, most significant first; `natDigits 0 = ['0']`. -/
def natDigits (n : Nat) : List Char :=
  if n = 0 then ['0'] else natDigitsAux n n

/-- Model of the JavaScript conversion `String(n)` on the numbers in `JSNum`. -/
def jsString : JSNum → String
  | .nan => "NaN"
  | .int n => if n < 0 then String.mk ('-' :: natDigits n.natAbs) else String.mk (natDigits n.natAbs)

/-- Reads the longest run of decimal digits at the front of `cs`; NaN when there is
none, otherwise the signed integer value. -/
def parseDigits (neg : Bool) (cs : List Char) : JSNum :=
  let ds := cs.takeWhile Char.isDigit
  if ds.isEmpty then .nan
  else .int ((if neg then -1 else 1) * (digitsToNat ds : Int))

/-- Model of the JavaScript builtin `parseFloat`, restricted to an optional sign
followed by decimal digits; every other input yields NaN. -/
def parseFloat (s : String) : JSNum :=
  match s.data with
  | [] => .nan
  | c :: rest =>
    if c = '-' then parseDigits true rest
    else if c = '+' then parseDigits false rest
    else parseDigits false (c :: rest)

/-- Universe of raw input values (`unknown` in the source): enough constructors to
hold the accepted strings and the rejected non-strings the specification uses. -/
inductive Value where
  | vstr : String → Value
  | vnum : JSNum → Value
  | vbool : Bool → Value
  | vnull : Value
deriving DecidableEq

/-- Modelled from the spec: the path taken through nested structure, an ordered
sequence of step names (section 3, section 6). -/
abbrev Context := List String

/-- Modelled from the spec: one failure record — offending value, context path,
optional custom message (section 3). -/
structure ValidationError where
  value : Value
  context : Context
  message : Option String
deriving DecidableEq

/-- Modelled from the spec: an ordered sequence of `ValidationError` (section 3). -/
abbrev Errors := List ValidationError

/-- Modelled from the spec: `Result` is Success-with-value or Failure-with-errors,
exactly one variant at a time (section 3). -/
inductive Result (E A : Type) where
  | failure : E → Result E A
  | success : A → Result E A
deriving DecidableEq

/-- Modelled from the spec: `Decoder<I, E, A>` from the missing `./poc` module — a
pure function from an input and a current context to a `Result` (sections 3, 4.1). -/
def D.Decoder (I E A : Type) : Type := I → Context → Result E A

/-- Modelled from the spec: the `D.success` helper of the missing `./poc` module. -/
def D.success {E A : Type} (a : A) : Result E A := .success a

/-- Modelled from the spec: the identity leaf decoder `D.id` of the missing `./poc`
module, used as the encoder of the `string` codec. -/
def D.id (A : Type) : D.Decoder A Errors A := fun a _ => .success a

/-- Modelled from the spec: the string leaf decoder `D.string` of the missing `./poc`
module — succeeds on a string input with that string, otherwise fails with a single
`ValidationError` whose value is the rejected input and whose context is the context
passed in (sections 4.1 and 8). -/
def D.string : D.Decoder Value Errors String := fun v ctx =>
  match v with
  | .vstr s => .success s
  | v => .failure [⟨v, ctx, none⟩]

/-- Modelled from the spec: sequential decoder composition `D.compose` of the missing
`./poc` module — `D.compose next d` feeds `d`'s success value to `next` with the
context passed through unchanged, and on failure propagates `d`'s errors unchanged
without consulting `next` (section 4.1). -/
def D.compose {I E M A : Type} (next : D.Decoder M E A) (d : D.Decoder I E M) :
    D.Decoder I E A :=
  fun i ctx =>
    match d i ctx with
    | .failure e => .failure e
    | .success m => next m ctx

/-- The `Codec` model of `src/Codec.ts`: a pairing of a decoder and an encoder. -/
structure Codec (D E : Type) where
  decoder : D
  encoder : E

/-- The `codec` smart constructor of `src/Codec.ts`. -/
def codec {D E : Type} (decoder : D) (encoder : E) : Codec D E :=
  ⟨decoder, encoder⟩

/-- The `string` primitive codec of `src/Codec.ts`: `codec(D.string, D.id<string>())`. -/
def string : Codec (D.Decoder Value Errors String) (D.Decoder String Errors String) :=
  codec D.string (D.id String)

/-- The `compose` operator of `src/Codec.ts`:
`codec(pipe(prev.decoder, D.compose(next.decoder)), pipe(next.encoder, D.compose(prev.encoder)))`. -/
def compose {I M A N I2 E : Type}
    (next : Codec (D.Decoder M E A) (D.Decoder A E N))
    (prev : Codec (D.Decoder I E M) (D.Decoder N E I2)) :
    Codec (D.Decoder I E A) (D.Decoder A E I2) :=
  codec (D.compose next.decoder prev.decoder) (D.compose prev.encoder next.encoder)

/-- The `NumberFromStringD` example decoder of `src/Codec.ts`:
`(s: string) => D.success(parseFloat(s))`. -/
def NumberFromStringD : D.Decoder String Errors JSNum :=
  fun s _ => D.success (parseFloat s)

/-- The `StringFromNumberD` example decoder of `src/Codec.ts`:
`(n: number) => D.success(String(n))`. -/
def StringFromNumberD : D.Decoder JSNum Errors String :=
  fun n _ => D.success (jsString n)

/-- The `NumberFromStringC` codec of `src/Codec.ts`: `codec(NumberFromStringD, StringFromNumberD)`. -/
def NumberFromStringC : Codec (D.Decoder String Errors JSNum) (D.Decoder JSNum Errors String) :=
  codec NumberFromStringD StringFromNumberD

/-- The `NumberFromString` composite codec of `src/Codec.ts`:
`pipe(string, compose(NumberFromStringC))`. -/
def NumberFromString : Codec (D.Decoder Value Errors JSNum) (D.Decoder JSNum Errors String) :=
  compose NumberFromStringC string

theorem digitsToNat_append (l : List Char) (c : Char) :
    digitsToNat (l ++ [c]) = 10 * digitsToNat l + (c.toNat - 48) := by
  simp [digitsToNat, List.foldl_append]

theorem digitChar_isDigit (d : Nat) (h : d < 10) : (Nat.digitChar d).isDigit = true := by
  interval_cases d <;> decide

theorem digitChar_val (d : Nat) (h : d < 10) : (Nat.digitChar d).toNat - 48 = d := by
  interval_cases d <;> decide

theorem natDigitsAux_all_digits :
    ∀ fuel n, ∀ c ∈ natDigitsAux fuel n, c.isDigit = true := by
  intro fuel
  induction fuel with
  | zero =>
    intro n c hc
    cases n <;> simp [natDigitsAux] at hc
  | succ f ih =>
    intro n c hc
    cases n with
    | zero => simp [natDigitsAux] at hc
    | succ m =>
      simp only [natDigitsAux, List.mem_append, List.mem_singleton] at hc
      rcases hc with hc | hc
      · exact ih _ c hc
      · subst hc
        exact digitChar_isDigit _ (Nat.mod_lt _ (by omega))

theorem natDigitsAux_correct :
    ∀ fuel n, n ≤ fuel → digitsToNat (natDigitsAux fuel n) = n := by
  intro fuel
  induction fuel with
  | zero =>
    intro n hn
    have : n = 0 := by omega
    subst this
    simp [natDigitsAux, digitsToNat]
  | succ f ih =>
    intro n hn
    cases n with
    | zero => simp [natDigitsAux, digitsToNat]
    | succ m =>
      have hdiv : (m + 1) / 10 ≤ f := by
        have : (m + 1) / 10 < m + 1 := Nat.div_lt_self (by omega) (by omega)
        omega
      rw [natDigitsAux, digitsToNat_append, ih _ hdiv,
        digitChar_val _ (Nat.mod_lt _ (by omega))]
      omega

theorem natDigitsAux_ne_nil : ∀ fuel n, n ≠ 0 → n ≤ fuel → natDigitsAux fuel n ≠ [] := by
  intro fuel n hn hf
  cases fuel with
  | zero => omega
  | succ f => cases n with
    | zero => exact absurd rfl hn
    | succ m => simp [natDigitsAux]

theorem natDigits_all_digits (n : Nat) : ∀ c ∈ natDigits n, c.isDigit = true := by
  intro c hc
  by_cases h : n = 0
  · subst h
    simp [natDigits] at hc
    subst hc
    decide
  · simp only [natDigits, if_neg h] at hc
    exact natDigitsAux_all_digits n n c hc

theorem natDigits_correct (n : Nat) : digitsToNat (natDigits n) = n := by
  by_cases h : n = 0
  · subst h; decide
  · simp only [natDigits, if_neg h]
    exact natDigitsAux_correct n n (Nat.le_refl n)

theorem natDigits_ne_nil (n : Nat) : natDigits n ≠ [] := by
  by_cases h : n = 0
  · subst h; decide
  · simp only [natDigits, if_neg h]
    exact natDigitsAux_ne_nil n n h (Nat.le_refl n)

theorem takeWhile_all {p : Char → Bool} :
    ∀ l : List Char, (∀ c ∈ l, p c = true) → l.takeWhile p = l := by
  intro l h
  induction l with
  | nil => rfl
  | cons c t ih =>
    have hc : p c = true := h c (List.mem_cons_self c t)
    simp only [List.takeWhile, hc, List.cons.injEq, true_and]
    exact ih fun x hx => h x (List.mem_cons_of_mem c hx)

theorem digit_not_sign {c : Char} (h : c.isDigit = true) : c ≠ '-' ∧ c ≠ '+' := by
  constructor <;> intro hc <;> subst hc <;> simp at h

theorem parseDigits_of_digits (neg : Bool) (l : List Char) (hl : l ≠ [])
    (hd : ∀ c ∈ l, c.isDigit = true) :
    parseDigits neg l = .int ((if neg then -1 else 1) * (digitsToNat l : Int)) := by
  have ht : l.takeWhile Char.isDigit = l := takeWhile_all l hd
  simp only [parseDigits, ht]
  rw [if_neg (by simpa [List.isEmpty_iff] using hl)]

theorem parseFloat_jsString (n : JSNum) : parseFloat (jsString n) = n := by
  cases n with
  | nan => decide
  | int n =>
    by_cases hneg : n < 0
    · have habs : n.natAbs ≠ 0 := by omega
      simp only [jsString, if_pos hneg]
      show parseFloat (String.mk ('-' :: natDigits n.natAbs)) = JSNum.int n
      rw [parseFloat]
      show parseDigits true (natDigits n.natAbs) = JSNum.int n
      rw [parseDigits_of_digits true (natDigits n.natAbs) (natDigits_ne_nil _)
        (natDigits_all_digits _), natDigits_correct]
      congr 1
      rw [if_pos rfl]
      omega
    · simp only [jsString, if_neg hneg]
      obtain ⟨c, t, hct⟩ : ∃ c t, natDigits n.natAbs = c :: t := by
        cases hl : natDigits n.natAbs with
        | nil => exact absurd hl (natDigits_ne_nil _)
        | cons c t => exact ⟨c, t, rfl⟩
      have hcd : c.isDigit = true := natDigits_all_digits n.natAbs c (by rw [hct]; exact List.mem_cons_self c t)
      obtain ⟨hc1, hc2⟩ := digit_not_sign hcd
      show parseFloat (String.mk (natDigits n.natAbs)) = JSNum.int n
      rw [parseFloat]
      simp only [hct, if_neg hc1, if_neg hc2]
      rw [← hct, parseDigits_of_digits false (natDigits n.natAbs) (natDigits_ne_nil _)
        (natDigits_all_digits _), natDigits_correct]
      congr 1
      rw [if_neg Bool.false_ne_true]
      omega

theorem D.compose_apply {I E M A : Type} (next : D.Decoder M E A) (d : D.Decoder I E M)
    (i : I) (ctx : Context) :
    D.compose next d i ctx =
      match d i ctx with
      | .failure e => .failure e
      | .success m => next m ctx := rfl

theorem D.compose_failure {I E M A : Type} (next : D.Decoder M E A) (d : D.Decoder I E M)
    (i : I) (ctx : Context) (e : E) (h : d i ctx = .failure e) :
    D.compose next d i ctx = .failure e := by
  rw [D.compose_apply, h]

theorem D.compose_success {I E M A : Type} (next : D.Decoder M E A) (d : D.Decoder I E M)
    (i : I) (ctx : Context) (m : M) (h : d i ctx = .success m) :
    D.compose next d i ctx = next m ctx := by
  rw [D.compose_apply, h]

theorem Result.success_or_failure {E A : Type} (r : Result E A) :
    (∃ a, r = .success a) ∨ (∃ e, r = .failure e) := by
  cases r with
  | failure e => exact Or.inr ⟨e, rfl⟩
  | success a => exact Or.inl ⟨a, rfl⟩

/-- Modelled from the spec: an encoder (here itself a decoder value) is total when it
succeeds on every input and context (sections 3 and 4.2). -/
def D.total {I E A : Type} (d : D.Decoder I E A) : Prop :=
  ∀ i ctx, ∃ a, d i ctx = .success a

/-- Claim C1: for every pair of composable codecs, `compose next prev` has as decoder
the sequential chaining of `prev.decoder` followed by `next.decoder`, and as encoder
the sequential chaining of `next.encoder` followed by `prev.encoder` — the encoder
order mirrors the decoder order. -/
theorem claim_C1 {I M A N I2 E : Type}
    (next : Codec (D.Decoder M E A) (D.Decoder A E N))
    (prev : Codec (D.Decoder I E M) (D.Decoder N E I2))
    (i : I) (a : A) (ctx : Context) :
    ((compose next prev).decoder i ctx =
      match prev.decoder i ctx with
      | .failure e => .failure e
      | .success m => next.decoder m ctx) ∧
    ((compose next prev).encoder a ctx =
      match next.encoder a ctx with
      | .failure e => .failure e
      | .success m => prev.encoder m ctx) := by
  constructor
  · cases h : prev.decoder i ctx <;>
      simp [show (compose next prev).decoder = D.compose next.decoder prev.decoder from rfl,
        D.compose_apply, h]
  · cases h : next.encoder a ctx <;>
      simp [show (compose next prev).encoder = D.compose prev.encoder next.encoder from rfl,
        D.compose_apply, h]

/-- Claim C2: when the first stage of a composed decoder fails, its errors are the
composite's errors unchanged and the result does not depend on the second stage at
all (so the second stage is never consulted); when the first stage succeeds with `m`,
the composite's result is exactly the second stage's result on `m`. -/
theorem claim_C2 {I M A N I2 E : Type}
    (next : Codec (D.Decoder M E A) (D.Decoder A E N))
    (prev : Codec (D.Decoder I E M) (D.Decoder N E I2))
    (i : I) (ctx : Context) :
    (∀ e, prev.decoder i ctx = .failure e →
      (compose next prev).decoder i ctx = .failure e ∧
      ∀ next2 : Codec (D.Decoder M E A) (D.Decoder A E N),
        (compose next2 prev).decoder i ctx = .failure e) ∧
    (∀ m, prev.decoder i ctx = .success m →
      (compose next prev).decoder i ctx = next.decoder m ctx) := by
  constructor
  · intro e he
    exact ⟨D.compose_failure next.decoder prev.decoder i ctx e he,
      fun next2 => D.compose_failure next2.decoder prev.decoder i ctx e he⟩
  · intro m hm
    exact D.compose_success next.decoder prev.decoder i ctx m hm

/-- Witness for C2: the string check rejects the number 42, the composite propagates
exactly that error; on the string "7" the composite runs the second stage. -/
theorem claim_C2_witness :
    (compose NumberFromStringC string).decoder (.vnum (.int 42)) [] =
      .failure [⟨.vnum (.int 42), [], none⟩] ∧
    (compose NumberFromStringC string).decoder (.vstr "7") [] =
      NumberFromStringC.decoder "7" [] :=
  ⟨((claim_C2 NumberFromStringC string (.vnum (.int 42)) []).1 _ rfl).1,
   (claim_C2 NumberFromStringC string (.vstr "7") []).2 "7" rfl⟩

/-- Claim C3: `compose` is associative in observable behavior: both groupings of
three composable codecs produce identical decode results on every input and identical
encode outputs on every decoded value. -/
theorem claim_C3 {I A1 A2 A3 E : Type}
    (cA : Codec (D.Decoder I E A1) (D.Decoder A1 E I))
    (cB : Codec (D.Decoder A1 E A2) (D.Decoder A2 E A1))
    (cC : Codec (D.Decoder A2 E A3) (D.Decoder A3 E A2))
    (i : I) (v : A3) (ctx : Context) :
    (compose cC (compose cB cA)).decoder i ctx =
      (compose (compose cC cB) cA).decoder i ctx ∧
    (compose cC (compose cB cA)).encoder v ctx =
      (compose (compose cC cB) cA).encoder v ctx := by
  constructor
  · show D.compose cC.decoder (D.compose cB.decoder cA.decoder) i ctx =
        D.compose (D.compose cC.decoder cB.decoder) cA.decoder i ctx
    cases h : cA.decoder i ctx <;> simp [D.compose_apply, h]
  · show D.compose (D.compose cA.encoder cB.encoder) cC.encoder v ctx =
        D.compose cA.encoder (D.compose cB.encoder cC.encoder) v ctx
    cases h : cC.encoder v ctx <;> simp [D.compose_apply, h]

/-- Claim C4: round-trip law for `NumberFromString` — if decoding a textual numeral
succeeds with value `n`, encoding `n` always succeeds with a textual numeral that
decodes to `n` again. -/
theorem claim_C4 (s : String) (n : JSNum)
    (h : NumberFromString.decoder (.vstr s) [] = .success n) :
    NumberFromString.encoder n [] = .success (jsString n) ∧
    NumberFromString.decoder (.vstr (jsString n)) [] = .success n := by
  refine ⟨rfl, ?_⟩
  show Result.success (parseFloat (jsString n)) = Result.success n
  rw [parseFloat_jsString]

/-- Witness for C4: decode("3") yields 3, encode(3) yields "3", and decoding "3"
again yields 3. -/
theorem claim_C4_witness :
    NumberFromString.decoder (.vstr "3") [] = .success (.int 3) ∧
    NumberFromString.encoder (.int 3) [] = .success "3" ∧
    NumberFromString.decoder (.vstr "3") [] = .success (.int 3) := by
  have h0 : NumberFromString.decoder (.vstr "3") [] = .success (.int 3) := by decide
  have h := claim_C4 "3" (.int 3) h0
  have hjs : jsString (.int 3) = "3" := by decide
  refine ⟨h0, ?_, h0⟩
  rw [← hjs]
  exact h.1

/-- Claim C5: the composite `NumberFromString` decodes "10" to 10, encodes 10 to
"10", and decodes the unparseable "abc" to NaN marked as success. -/
theorem claim_C5 :
    NumberFromString.decoder (.vstr "10") [] = .success (.int 10) ∧
    NumberFromString.encoder (.int 10) [] = .success "10" ∧
    NumberFromString.decoder (.vstr "abc") [] = .success .nan := by
  refine ⟨by decide, by decide, by decide⟩

/-- Claim C6: the `string` leaf codec decodes every string to itself, rejects every
non-string with exactly one `ValidationError` carrying the rejected value and the
context passed in, and encodes every string to itself. -/
theorem claim_C6 (s t : String) (v : Value) (ctx : Context)
    (hv : ∀ u : String, v ≠ .vstr u) :
    string.decoder (.vstr s) ctx = .success s ∧
    string.decoder v ctx = .failure [⟨v, ctx, none⟩] ∧
    string.encoder t ctx = .success t := by
  refine ⟨rfl, ?_, rfl⟩
  cases v with
  | vstr u => exact absurd rfl (hv u)
  | vnum m => rfl
  | vbool b => rfl
  | vnull => rfl

/-- Witness for C6: decode("x") succeeds with "x", decode(42) fails with the single
error {value: 42, context: []}, and encode("x") yields "x". -/
theorem claim_C6_witness :
    string.decoder (.vstr "x") [] = .success "x" ∧
    string.decoder (.vnum (.int 42)) [] = .failure [⟨.vnum (.int 42), [], none⟩] ∧
    string.encoder "x" [] = .success "x" :=
  claim_C6 "x" "x" (.vnum (.int 42)) [] (fun u h => Value.noConfusion h)

/-- Claim C7: encoding is total — the encoders of `string` and `NumberFromString`
succeed on every input, and `compose` preserves encoder totality: the composite of
two codecs with total encoders has a total encoder. -/
theorem claim_C7 {I M A N I2 E : Type}
    (next : Codec (D.Decoder M E A) (D.Decoder A E N))
    (prev : Codec (D.Decoder I E M) (D.Decoder N E I2))
    (hn : D.total next.encoder) (hp : D.total prev.encoder) :
    D.total string.encoder ∧ D.total NumberFromString.encoder ∧
    D.total (compose next prev).encoder := by
  refine ⟨fun s ctx => ⟨s, rfl⟩, fun n ctx => ⟨jsString n, rfl⟩, fun a ctx => ?_⟩
  obtain ⟨m, hm⟩ := hn a ctx
  obtain ⟨o, ho⟩ := hp m ctx
  refine ⟨o, ?_⟩
  show D.compose prev.encoder next.encoder a ctx = .success o
  rw [D.compose_success prev.encoder next.encoder a ctx m hm, ho]

/-- Witness for C7: the encoder of the composite `NumberFromString` (built by
`compose`) succeeds on the number 5. -/
theorem claim_C7_witness :
    ∃ o, (compose NumberFromStringC string).encoder (.int 5) [] = .success o :=
  (claim_C7 NumberFromStringC string
    (fun a ctx => ⟨jsString a, rfl⟩) (fun a ctx => ⟨a, rfl⟩)).2.2 (.int 5) []

/-- Claim C8: no abnormal termination — every decoder of the module is a total
function whose result on any input and context is a `Result` value, either a success
or a failure. -/
theorem claim_C8 {I M A N I2 E : Type}
    (next : Codec (D.Decoder M E A) (D.Decoder A E N))
    (prev : Codec (D.Decoder I E M) (D.Decoder N E I2))
    (v : Value) (s : String) (i : I) (ctx : Context) :
    ((∃ a, string.decoder v ctx = .success a) ∨
      (∃ e, string.decoder v ctx = .failure e)) ∧
    ((∃ a, NumberFromStringD s ctx = .success a) ∨
      (∃ e, NumberFromStringD s ctx = .failure e)) ∧
    ((∃ a, NumberFromString.decoder v ctx = .success a) ∨
      (∃ e, NumberFromString.decoder v ctx = .failure e)) ∧
    ((∃ a, (compose next prev).decoder i ctx = .success a) ∨
      (∃ e, (compose next prev).decoder i ctx = .failure e)) :=
  ⟨Result.success_or_failure _, Result.success_or_failure _,
   Result.success_or_failure _, Result.success_or_failure _⟩

/-- Claim C9: determinism — decoders and encoders of the module are pure functions,
so two invocations with equal inputs and equal contexts return equal results. -/
theorem claim_C9 {I M A N I2 E : Type}
    (next : Codec (D.Decoder M E A) (D.Decoder A E N))
    (prev : Codec (D.Decoder I E M) (D.Decoder N E I2))
    (v v2 : Value) (s s2 : String) (n n2 : JSNum) (i i2 : I) (a a2 : A)
    (c c2 : Context) (hv : v = v2) (hs : s = s2) (hn : n = n2) (hi : i = i2)
    (ha : a = a2) (hc : c = c2) :
    string.decoder v c = string.decoder v2 c2 ∧
    string.encoder s c = string.encoder s2 c2 ∧
    NumberFromString.decoder v c = NumberFromString.decoder v2 c2 ∧
    NumberFromString.encoder n c = NumberFromString.encoder n2 c2 ∧
    (compose next prev).decoder i c = (compose next prev).decoder i2 c2 ∧
    (compose next prev).encoder a c = (compose next prev).encoder a2 c2 := by
  subst hv hs hn hi ha hc
  exact ⟨rfl, rfl, rfl, rfl, rfl, rfl⟩

/-- Witness for C9: two invocations on the same concrete input and context agree, for
each decoder and encoder of the module. -/
theorem claim_C9_witness :
    string.decoder (.vstr "x") [] = string.decoder (.vstr "x") [] ∧
    string.encoder "x" [] = string.encoder "x" [] ∧
    NumberFromString.decoder (.vstr "x") [] = NumberFromString.decoder (.vstr "x") [] ∧
    NumberFromString.encoder (.int 1) [] = NumberFromString.encoder (.int 1) [] ∧
    (compose NumberFromStringC string).decoder (.vstr "x") [] =
      (compose NumberFromStringC string).decoder (.vstr "x") [] ∧
    (compose NumberFromStringC string).encoder (.int 1) [] =
      (compose NumberFromStringC string).encoder (.int 1) [] :=
  claim_C9 NumberFromStringC string (.vstr "x") (.vstr "x") "x" "x" (.int 1) (.int 1)
    (.vstr "x") (.vstr "x") (.int 1) (.int 1) [] [] rfl rfl rfl rfl rfl rfl

/-- Claim C10: the parse stage `NumberFromStringD` always succeeds with
`parseFloat s` on a string input, every string input passes the composite, and the
composite `NumberFromString` fails exactly when the leading string check fails. -/
theorem claim_C10 (s : String) (v : Value) (ctx : Context) :
    NumberFromStringD s ctx = .success (parseFloat s) ∧
    (∃ n, NumberFromString.decoder (.vstr s) ctx = .success n) ∧
    ((∃ e, NumberFromString.decoder v ctx = .failure e) ↔
      (∃ e, string.decoder v ctx = .failure e)) := by
  refine ⟨rfl, ⟨parseFloat s, rfl⟩, ?_⟩
  cases v with
  | vstr t =>
    simp [show NumberFromString.decoder (.vstr t) ctx = .success (parseFloat t) from rfl,
      show string.decoder (.vstr t) ctx = .success t from rfl]
  | vnum m =>
    exact ⟨fun _ => ⟨[⟨.vnum m, ctx, none⟩], rfl⟩, fun _ => ⟨[⟨.vnum m, ctx, none⟩], rfl⟩⟩
  | vbool b =>
    exact ⟨fun _ => ⟨[⟨.vbool b, ctx, none⟩], rfl⟩, fun _ => ⟨[⟨.vbool b, ctx, none⟩], rfl⟩⟩
  | vnull =>
    exact ⟨fun _ => ⟨[⟨.vnull, ctx, none⟩], rfl⟩, fun _ => ⟨[⟨.vnull, ctx, none⟩], rfl⟩⟩
